import Mathlib

/-!
Verification development for the batch-backtest orchestrator and aggregator
(`web/routes/batchBacktest.js`).

Modelling conventions (shallow embedding of the JavaScript source):
* JavaScript numeric values that flow through the aggregator are modelled by
  `JNum`: a rational number, the value `NaN`, or `undefined` (which is what a
  property access on a missing field yields).  Addition follows JavaScript
  semantics: any operand other than a plain number poisons the sum to `NaN`.
* Objects that may be absent are modelled by `Option`.
* A JavaScript function that can throw a `TypeError` (property access on
  `undefined`) is modelled in the `Except Unit` monad; `.error ()` stands for
  the thrown exception, `.ok` for a normal return (whose value may itself be
  `undefined`, i.e. `none`).
* Timestamps are minutes on the proleptic Gregorian calendar (days counted
  from March 1 of year 0, each day 1440 minutes); the hard-coded ISO date
  strings of the source are rendered as `Date` triples fed to this count.
-/

namespace Gekko

/-- JavaScript numeric values reaching the aggregator: a number, `NaN`, or
`undefined` (the result of reading a missing property). -/
inductive JNum where
  | num (q : ℚ)
  | nan
  | undef
deriving DecidableEq

/-- JavaScript `+` on such values: two plain numbers add; any other
combination (an `undefined` or `NaN` operand) yields `NaN`. -/
def jadd : JNum → JNum → JNum
  | .num a, .num b => .num (a + b)
  | _, _ => .nan

/-- JavaScript `Number` coercion as performed by `Math.min`/`Math.max` on
their arguments: `undefined` becomes `NaN`. -/
def toNum : JNum → JNum
  | .num q => .num q
  | _ => .nan

/-- Two-argument `Math.min`: `NaN` (or `undefined`) poisons the result. -/
def jmin2 (a b : JNum) : JNum :=
  match toNum a, toNum b with
  | .num x, .num y => .num (min x y)
  | _, _ => .nan

/-- Two-argument `Math.max`: `NaN` (or `undefined`) poisons the result. -/
def jmax2 (a b : JNum) : JNum :=
  match toNum a, toNum b with
  | .num x, .num y => .num (max x y)
  | _, _ => .nan

/-- `Math.min.apply(null, xs)` for a non-empty argument list (the aggregator
only calls it on non-empty lists). -/
def jsMinList : List JNum → JNum
  | [] => .nan
  | x :: xs => xs.foldl jmin2 (toNum x)

/-- `Math.max.apply(null, xs)` for a non-empty argument list. -/
def jsMaxList : List JNum → JNum
  | [] => .nan
  | x :: xs => xs.foldl jmax2 (toNum x)

/-- JavaScript comparison `a >= t` for a numeric threshold `t`: false when
`a` is `NaN` or `undefined`. -/
def jge (a : JNum) (t : ℚ) : Bool :=
  match a with
  | .num q => t ≤ q
  | _ => false

/-- JavaScript comparison `a < t` for a numeric threshold `t`: false when
`a` is `NaN` or `undefined`. -/
def jlt (a : JNum) (t : ℚ) : Bool :=
  match a with
  | .num q => q < t
  | _ => false

/-- The rational carried by a plain number, `0` otherwise (used only on the
specification side to phrase ordinary sums). -/
def qval : JNum → ℚ
  | .num q => q
  | _ => 0

/-- The `performanceReport` record of one backtest result.  A field holds
`JNum.undef` when the source object lacks it. -/
structure PerfReport where
  losses : JNum
  profit : JNum
  relativeProfit : JNum
  trades : JNum
  yearlyProfit : JNum
  startBalance : JNum
  startPrice : JNum
  startTime : JNum
  endPrice : JNum
  endTime : JNum
deriving DecidableEq

/-- The empty object `{}` viewed as a `PerfReport`: every property access
yields `undefined`. -/
def emptyPerf : PerfReport :=
  ⟨.undef, .undef, .undef, .undef, .undef, .undef, .undef, .undef, .undef, .undef⟩

/-- The simplified per-partition stats object consumed by `getFakeReport`. -/
structure FakeStat where
  profits : JNum
  profitTot : JNum
deriving DecidableEq

/-- The `tradingAdvisor` section of a backtest result: its `stats` object may
be absent. -/
structure TAdata where
  stats : Option FakeStat
deriving DecidableEq

/-- One backtest result as the aggregator sees it.  `performanceReport` is
`none` when the structure is missing entirely. -/
structure ResultReport where
  performanceReport : Option PerfReport
  tradingAdvisor : Option TAdata
deriving DecidableEq

/-- The expression `r.performanceReport || {}` followed by property access. -/
def perfGet (r : ResultReport) : PerfReport :=
  r.performanceReport.getD emptyPerf

/-- One step of the source's `reduce` callback: build a fresh accumulator
object whose `performanceReport` holds the five summed fields (its other
properties are absent, hence `undefined`). -/
def sumStep (res cur : ResultReport) : ResultReport :=
  let pfRes := perfGet res
  let pfCur := perfGet cur
  { performanceReport := some
      { losses := jadd pfRes.losses pfCur.losses
        profit := jadd pfRes.profit pfCur.profit
        relativeProfit := jadd pfRes.relativeProfit pfCur.relativeProfit
        trades := jadd pfRes.trades pfCur.trades
        yearlyProfit := jadd pfRes.yearlyProfit pfCur.yearlyProfit
        startBalance := .undef
        startPrice := .undef
        startTime := .undef
        endPrice := .undef
        endTime := .undef }
    tradingAdvisor := none }

/-- The object returned by `getTotalPerformanceReport`: the reduced sums,
overwritten by `Object.assign` with boundary fields, extremes and period
counters. -/
structure TotalPerformanceReport where
  losses : JNum
  profit : JNum
  relativeProfit : JNum
  trades : JNum
  yearlyProfit : JNum
  endPrice : JNum
  endTime : JNum
  startBalance : JNum
  startPrice : JNum
  startTime : JNum
  minProfit : JNum
  maxProfit : JNum
  periodsProfit : ℕ
  periodsLoss : ℕ
  periodsTotal : ℕ
deriving DecidableEq

/-- `getTotalPerformanceReport(backtests, batchPeriodProfitThreshold)`.
Returns `.ok none` (JavaScript `undefined`) on an empty list.  On a
non-empty list it evaluates the `Object.assign` argument object, which
dereferences `backtest.performanceReport.profit` for every element (and
`last.endPrice` / `first.startBalance`), so the call throws a `TypeError`
(`.error ()`) as soon as any element lacks the `performanceReport`
structure; otherwise it returns the assembled report. -/
def getTotalPerformanceReport (backtests : List ResultReport)
    (batchPeriodProfitThreshold : ℚ) : Except Unit (Option TotalPerformanceReport) :=
  match backtests with
  | [] => .ok none
  | b0 :: rest =>
    if (b0 :: rest).all (fun b => b.performanceReport.isSome) then
      let red := perfGet (rest.foldl sumStep b0)
      let last := perfGet (rest.getLastD b0)
      let first := perfGet b0
      let profits := (b0 :: rest).map (fun b => (perfGet b).profit)
      .ok (some
        { losses := red.losses
          profit := red.profit
          relativeProfit := red.relativeProfit
          trades := red.trades
          yearlyProfit := red.yearlyProfit
          endPrice := last.endPrice
          endTime := last.endTime
          startBalance := first.startBalance
          startPrice := first.startPrice
          startTime := first.startTime
          minProfit := jsMinList profits
          maxProfit := jsMaxList profits
          periodsProfit :=
            ((b0 :: rest).filter
              (fun b => jge (perfGet b).profit batchPeriodProfitThreshold)).length
          periodsLoss :=
            ((b0 :: rest).filter
              (fun b => jlt (perfGet b).profit batchPeriodProfitThreshold)).length
          periodsTotal := (b0 :: rest).length })
    else .error ()

/-- The `{minProfit, maxProfit}` object of `getBatchBacktestReport`. -/
structure BatchReport where
  minProfit : JNum
  maxProfit : JNum
deriving DecidableEq

/-- `getBatchBacktestReport(backtests)`.  The profits array is built before
the length test, so any element lacking `performanceReport` throws a
`TypeError`; an empty list returns `undefined`. -/
def getBatchBacktestReport (backtests : List ResultReport) :
    Except Unit (Option BatchReport) :=
  if backtests.all (fun b => b.performanceReport.isSome) then
    let profitsArr := backtests.map (fun b => (perfGet b).profit)
    if backtests.length > 0 then
      .ok (some { minProfit := jsMinList profitsArr, maxProfit := jsMaxList profitsArr })
    else .ok none
  else .error ()

/-- The rollup object of `getFakeReport`. -/
structure FakeReport where
  stats : List FakeStat
  trades : JNum
  total : JNum
deriving DecidableEq

/-- `getFakeReport(stats)`: reduce `profits` and `profitTot` over the stats
with seed `0` under JavaScript addition. -/
def getFakeReport (stats : List FakeStat) : FakeReport :=
  { stats := stats
    trades := stats.foldl (fun acc s => jadd acc s.profits) (.num 0)
    total := stats.foldl (fun acc s => jadd acc s.profitTot) (.num 0) }

/-- The expression `backtests.map(b => b.tradingAdvisor.stats).filter(b => !!b)`
feeding `getFakeReport`: throws a `TypeError` when some result lacks the
`tradingAdvisor` object, otherwise keeps the present stats objects. -/
def extractStats (backtests : List ResultReport) : Except Unit (List FakeStat) :=
  if backtests.all (fun b => b.tradingAdvisor.isSome) then
    .ok (backtests.filterMap (fun b => b.tradingAdvisor.bind (fun ta => ta.stats)))
  else .error ()

/-- A calendar date, rendering one of the hard-coded ISO strings such as
`2017-09-21T00:00:00Z` (all of them are at midnight UTC). -/
structure Date where
  year : ℕ
  month : ℕ
  day : ℕ
deriving DecidableEq

/-- Gregorian leap-year test. -/
def isLeap (y : ℕ) : Bool :=
  (y % 4 == 0 && y % 100 != 0) || y % 400 == 0

/-- Number of days of month `m` in year `y`. -/
def daysInMonth (y m : ℕ) : ℕ :=
  if m = 2 then (if isLeap y then 29 else 28)
  else if m = 4 ∨ m = 6 ∨ m = 9 ∨ m = 11 then 30
  else 31

/-- A valid calendar date. -/
def Date.valid (d : Date) : Bool :=
  1 ≤ d.month && d.month ≤ 12 && 1 ≤ d.day && d.day ≤ daysInMonth d.year d.month

/-- Day count of a date in the proleptic Gregorian calendar, measured from
March 1 of year 0 (the standard civil-calendar day count with March-based
years, so the leap day sits at the end of the shifted year). -/
def civilDays (dt : Date) : ℕ :=
  let y := if dt.month ≤ 2 then dt.year - 1 else dt.year
  let era := y / 400
  let yoe := y % 400
  let mShift := if dt.month > 2 then dt.month - 3 else dt.month + 9
  let doy := (153 * mShift + 2) / 5 + dt.day - 1
  let doe := yoe * 365 + yoe / 4 - yoe / 100 + doy
  era * 146097 + doe

/-- Timestamp of a midnight-UTC date in minutes (1440 minutes per day). -/
def dm (dt : Date) : ℤ :=
  1440 * (civilDays dt : ℤ)

/-- The date `k` calendar months after `dt`, keeping the day of month. -/
def addMonths (dt : Date) (k : ℕ) : Date :=
  let t := dt.year * 12 + (dt.month - 1) + k
  ⟨t / 12, t % 12 + 1, dt.day⟩

/-- A generated date span.  The source's `from`/`to` keys are Lean keywords,
so they are rendered as `fromTs`/`toTs`; `fromTs` is the `moment(...)
.subtract(warmupMinutes, 'minutes').toDate()` value and `toTs` the nominal
end boundary. -/
structure DateSpan where
  fromTs : ℤ
  toTs : ℤ
deriving DecidableEq

/-- One literal entry `{ from: moment(p.1).subtract(w, 'minutes').toDate(),
to: p.2 }` for each boundary pair of a span table. -/
def mkSpans (w : ℤ) (bounds : List (Date × Date)) : List DateSpan :=
  bounds.map (fun p => { fromTs := dm p.1 - w, toTs := dm p.2 })

/-- The boundary pairs of the hard-coded `monthlySpans` table. -/
def monthlyBounds : List (Date × Date) :=
  [ (⟨2017, 9, 21⟩, ⟨2017, 10, 21⟩),
    (⟨2017, 10, 21⟩, ⟨2017, 11, 21⟩),
    (⟨2017, 11, 21⟩, ⟨2017, 12, 21⟩),
    (⟨2017, 12, 21⟩, ⟨2018, 1, 21⟩),
    (⟨2018, 1, 21⟩, ⟨2018, 2, 21⟩),
    (⟨2018, 2, 21⟩, ⟨2018, 3, 21⟩),
    (⟨2018, 3, 21⟩, ⟨2018, 4, 21⟩),
    (⟨2018, 4, 21⟩, ⟨2018, 5, 21⟩),
    (⟨2018, 5, 21⟩, ⟨2018, 6, 21⟩),
    (⟨2018, 6, 21⟩, ⟨2018, 7, 21⟩),
    (⟨2018, 7, 21⟩, ⟨2018, 8, 21⟩),
    (⟨2018, 8, 21⟩, ⟨2018, 9, 21⟩),
    (⟨2018, 9, 21⟩, ⟨2018, 10, 21⟩),
    (⟨2018, 10, 21⟩, ⟨2018, 11, 21⟩),
    (⟨2018, 11, 21⟩, ⟨2018, 12, 21⟩),
    (⟨2018, 12, 21⟩, ⟨2019, 1, 21⟩),
    (⟨2019, 1, 21⟩, ⟨2019, 2, 21⟩),
    (⟨2019, 2, 21⟩, ⟨2019, 3, 21⟩),
    (⟨2019, 3, 21⟩, ⟨2019, 4, 21⟩),
    (⟨2019, 4, 21⟩, ⟨2019, 5, 21⟩),
    (⟨2019, 5, 21⟩, ⟨2019, 6, 21⟩),
    (⟨2019, 6, 21⟩, ⟨2019, 7, 21⟩),
    (⟨2019, 7, 21⟩, ⟨2019, 8, 21⟩),
    (⟨2019, 8, 21⟩, ⟨2019, 9, 21⟩),
    (⟨2019, 9, 21⟩, ⟨2019, 10, 21⟩),
    (⟨2019, 10, 21⟩, ⟨2019, 11, 21⟩),
    (⟨2019, 11, 21⟩, ⟨2019, 12, 21⟩),
    (⟨2019, 12, 21⟩, ⟨2020, 1, 21⟩),
    (⟨2020, 1, 21⟩, ⟨2020, 2, 21⟩),
    (⟨2020, 2, 21⟩, ⟨2020, 3, 21⟩),
    (⟨2020, 3, 21⟩, ⟨2020, 4, 21⟩),
    (⟨2020, 4, 21⟩, ⟨2020, 5, 21⟩),
    (⟨2020, 5, 21⟩, ⟨2020, 6, 21⟩),
    (⟨2020, 6, 21⟩, ⟨2020, 7, 21⟩),
    (⟨2020, 7, 21⟩, ⟨2020, 8, 21⟩),
    (⟨2020, 8, 21⟩, ⟨2020, 9, 21⟩),
    (⟨2020, 9, 21⟩, ⟨2020, 10, 21⟩),
    (⟨2020, 10, 21⟩, ⟨2020, 11, 21⟩),
    (⟨2020, 11, 21⟩, ⟨2020, 12, 21⟩),
    (⟨2020, 12, 21⟩, ⟨2021, 1, 21⟩),
    (⟨2021, 1, 21⟩, ⟨2021, 2, 21⟩) ]

/-- `monthlySpans(warmupMinutes)`. -/
def monthlySpans (warmupMinutes : ℤ) : List DateSpan :=
  mkSpans warmupMinutes monthlyBounds

/-- The boundary pairs of the hard-coded `quarterlySpans` table. -/
def quarterlyBounds : List (Date × Date) :=
  [ (⟨2017, 10, 1⟩, ⟨2018, 1, 1⟩),
    (⟨2018, 1, 1⟩, ⟨2018, 4, 1⟩),
    (⟨2018, 4, 1⟩, ⟨2018, 7, 1⟩),
    (⟨2018, 7, 1⟩, ⟨2018, 10, 1⟩),
    (⟨2018, 10, 1⟩, ⟨2019, 1, 1⟩),
    (⟨2019, 1, 1⟩, ⟨2019, 4, 1⟩),
    (⟨2019, 4, 1⟩, ⟨2019, 7, 1⟩),
    (⟨2019, 7, 1⟩, ⟨2019, 10, 1⟩),
    (⟨2019, 10, 1⟩, ⟨2020, 1, 1⟩),
    (⟨2020, 1, 1⟩, ⟨2020, 4, 1⟩),
    (⟨2020, 4, 1⟩, ⟨2020, 7, 1⟩),
    (⟨2020, 7, 1⟩, ⟨2020, 10, 1⟩),
    (⟨2020, 10, 1⟩, ⟨2021, 1, 1⟩) ]

/-- `quarterlySpans(warmupMinutes)`. -/
def quarterlySpans (warmupMinutes : ℤ) : List DateSpan :=
  mkSpans warmupMinutes quarterlyBounds

/-- The boundary pairs of the hard-coded `yearlySpans` table. -/
def yearlyBounds : List (Date × Date) :=
  [ (⟨2018, 1, 1⟩, ⟨2019, 1, 1⟩),
    (⟨2019, 1, 1⟩, ⟨2020, 1, 1⟩),
    (⟨2020, 1, 1⟩, ⟨2021, 1, 1⟩) ]

/-- `yearlySpans(warmupMinutes)`. -/
def yearlySpans (warmupMinutes : ℤ) : List DateSpan :=
  mkSpans warmupMinutes yearlyBounds

/-- The `config.backtest` section: only its `daterange` field is touched by
this route. -/
structure BacktestSection where
  daterange : Option DateSpan
deriving DecidableEq

/-- The `config.tradingAdvisor` section (history size and candle size in
minutes; the source multiplies them as plain numbers, modelled as
integers). -/
structure TradingAdvisorSection where
  historySize : ℤ
  candleSize : ℤ
deriving DecidableEq

/-- The `config.batchBacktest` section; `batchSize` is a string or absent. -/
structure BatchBacktestSection where
  batchSize : Option String
deriving DecidableEq

/-- The slice of the merged configuration that the modelled code reads or
writes. -/
structure Config where
  backtest : BacktestSection
  tradingAdvisor : TradingAdvisorSection
  batchBacktest : Option BatchBacktestSection
deriving DecidableEq

/-- `getDateMonthSpansForYear(config)`.  A falsy `batchSize` (absent section,
absent key, or empty string) and the literal `'1 month'` select the monthly
table; `'1 quarter'` and `'1 year'` select theirs; any other value matches
no branch and the function returns `undefined` (`none`). -/
def getDateMonthSpansForYear (config : Config) : Option (List DateSpan) :=
  let batchSize := config.batchBacktest.bind (fun s => s.batchSize)
  let warmupMinutes := config.tradingAdvisor.historySize * config.tradingAdvisor.candleSize
  if batchSize = none ∨ batchSize = some "" ∨ batchSize = some "1 month" then
    some (monthlySpans warmupMinutes)
  else if batchSize = some "1 quarter" then
    some (quarterlySpans warmupMinutes)
  else if batchSize = some "1 year" then
    some (yearlySpans warmupMinutes)
  else
    none

/-- `JSON.parse(JSON.stringify(config))` on the plain-data configuration
slice: a value round-trip, hence the identity on `Config` values (what the
clone buys in JavaScript is a fresh, unaliased object, which the frame
claims probe through the mutation-threading model below). -/
def deepClone (c : Config) : Config := c

/-- The assignment `config.backtest.daterange = dateSpan` as a value
update. -/
def setSpan (c : Config) (s : DateSpan) : Config :=
  { c with backtest := { c.backtest with daterange := some s } }

/-- The sequential branch (`config.batch.synchronous` truthy): one engine
call per span, awaited in order, pushing results; the same configuration
object is reused, its `daterange` overwritten before each call, so the
configuration value passed onward is the one the previous call received.
A rejected call aborts the loop (the `await` rethrows). -/
def seqLoop (engine : Config → Except ε ResultReport) :
    Config → List DateSpan → Except ε (List ResultReport)
  | _, [] => .ok []
  | config, s :: rest => do
    let c := setSpan config s
    let r ← engine c
    let rs ← seqLoop engine c rest
    .ok (r :: rs)

/-- The concurrent branch: `Promise.all` over one engine call per span, each
on a deep clone of the configuration with its own span.  Modelled with a
deterministic left-to-right join: the first (leftmost) rejection rejects the
whole batch — for a single failing partition this coincides with
`Promise.all`, whose rejection is the unique rejecting promise's error. -/
def concAll (engine : Config → Except ε ResultReport) (config : Config) :
    List DateSpan → Except ε (List ResultReport)
  | [] => .ok []
  | s :: rest => do
    let r ← engine (setSpan (deepClone config) s)
    let rs ← concAll engine config rest
    .ok (r :: rs)

/-- An error escaping the route: either the compute engine's rejection or a
`TypeError` thrown while assembling the aggregate reports. -/
inductive BatchError (ε : Type) where
  | engine (e : ε)
  | typeError
deriving DecidableEq

/-- The response object `ret` of the route. -/
structure BatchOutput where
  backtests : List ResultReport
  performanceReport : Option TotalPerformanceReport
  batchReport : Option BatchReport
  fakeReport : FakeReport
deriving DecidableEq

/-- The route body from the execution `if` through the construction of
`ret` (lines 59-79), parametrised by the compute engine
(`pipelineRunner mode`), the already-generated span list, the
`synchronous` flag and the profit threshold. -/
def runBatch (engine : Config → Except ε ResultReport) (synchronous : Bool)
    (config : Config) (dateSpans : List DateSpan) (threshold : ℚ) :
    Except (BatchError ε) BatchOutput :=
  match (if synchronous then seqLoop engine config dateSpans
         else concAll engine config dateSpans) with
  | .error e => .error (.engine e)
  | .ok backtests =>
    match getTotalPerformanceReport backtests threshold with
    | .error _ => .error .typeError
    | .ok performanceReport =>
      match getBatchBacktestReport backtests with
      | .error _ => .error .typeError
      | .ok batchReport =>
        match extractStats backtests with
        | .error _ => .error .typeError
        | .ok stats =>
          .ok { backtests := backtests
                performanceReport := performanceReport
                batchReport := batchReport
                fakeReport := getFakeReport stats }

/-- The trace of configuration values the engine receives in the sequential
branch, for an engine that may also mutate the shared configuration object
(its second component is the state of that object when the call returns).
Because the branch reuses one object, the mutated state is what the next
iteration's `daterange` assignment is applied to. -/
def seqInputsMut (engine : Config → ResultReport × Config) :
    Config → List DateSpan → List Config
  | _, [] => []
  | config, s :: rest =>
    let c := setSpan config s
    let c2 := (engine c).2
    c :: seqInputsMut engine c2 rest

/-- The trace of configuration values the engine receives in the concurrent
branch: every call gets its own deep clone of the original configuration
with its own span, so no engine mutation can reach another call's input. -/
def concInputs (config : Config) (spans : List DateSpan) : List Config :=
  spans.map (fun s => setSpan (deepClone config) s)

/-- Nominal (warm-up-ignored) start of a generated span. -/
def nominalStart (w : ℤ) (s : DateSpan) : ℤ :=
  s.fromTs + w

/-- The spec-side chronology predicate on a span table: nominal ranges are
non-empty, strictly increasing and non-overlapping. -/
def spansChronological (w : ℤ) (spans : List DateSpan) : Prop :=
  spans.Chain' (fun a b => a.toTs ≤ nominalStart w b ∧ nominalStart w a < nominalStart w b) ∧
  ∀ s ∈ spans, nominalStart w s < s.toTs

/-- The spec-side granularity predicate: a span's nominal range runs from a
valid calendar date to the date exactly `k` calendar months later, and its
`fromTs` is that nominal start minus the warm-up. -/
def spanGranularity (w : ℤ) (k : ℕ) (s : DateSpan) : Prop :=
  ∃ d : Date, d.valid = true ∧ s.fromTs = dm d - w ∧
    nominalStart w s = dm d ∧ s.toTs = dm (addMonths d k)

/-- Boolean adjacency check along a list, used to decide chain facts about
the concrete boundary tables. -/
def chainB (R : α → α → Bool) : List α → Bool
  | [] => true
  | [_] => true
  | a :: b :: rest => R a b && chainB R (b :: rest)

theorem chainB_chain' {R : α → α → Bool} :
    ∀ {l : List α}, chainB R l = true → l.Chain' (fun a b => R a b = true)
  | [], _ => List.chain'_nil
  | [_], _ => List.chain'_singleton _
  | _ :: b :: rest, h => by
    rw [chainB, Bool.and_eq_true] at h
    exact List.Chain'.cons h.1 (chainB_chain' h.2)

theorem mkSpans_chronological (w : ℤ) (bounds : List (Date × Date))
    (h1 : chainB (fun p q => decide (dm p.2 ≤ dm q.1) && decide (dm p.1 < dm q.1)) bounds = true)
    (h2 : ∀ p ∈ bounds, dm p.1 < dm p.2) :
    spansChronological w (mkSpans w bounds) := by
  constructor
  · rw [mkSpans, List.chain'_map]
    refine (chainB_chain' h1).imp ?_
    intro p q hpq
    rw [Bool.and_eq_true, decide_eq_true_eq, decide_eq_true_eq] at hpq
    constructor
    · show dm p.2 ≤ dm q.1 - w + w
      omega
    · show dm p.1 - w + w < dm q.1 - w + w
      omega
  · intro s hs
    rw [mkSpans, List.mem_map] at hs
    obtain ⟨p, hp, rfl⟩ := hs
    have := h2 p hp
    show dm p.1 - w + w < dm p.2
    omega

theorem mkSpans_granularity (w : ℤ) (k : ℕ) (bounds : List (Date × Date))
    (h : ∀ p ∈ bounds, p.1.valid = true ∧ p.2 = addMonths p.1 k) :
    ∀ s ∈ mkSpans w bounds, spanGranularity w k s := by
  intro s hs
  rw [mkSpans, List.mem_map] at hs
  obtain ⟨p, hp, rfl⟩ := hs
  obtain ⟨hv, hadd⟩ := h p hp
  refine ⟨p.1, hv, rfl, ?_, by rw [hadd]⟩
  show dm p.1 - w + w = dm p.1
  omega

/-- Claim C7: for every non-negative warm-up duration and every supported
granularity (monthly, quarterly, yearly), the generated span table is
chronologically ordered with nominal ranges non-empty, strictly increasing
and non-overlapping; every span's `fromTs` is a valid nominal calendar
boundary minus the warm-up (hence the nominal boundary itself when the
warm-up is zero), and every nominal range runs for exactly 1, 3 or 12
calendar months respectively. -/
theorem C7_span_tables (w : ℤ) (_hw : 0 ≤ w) :
    (spansChronological w (monthlySpans w) ∧
      ∀ s ∈ monthlySpans w, spanGranularity w 1 s) ∧
    (spansChronological w (quarterlySpans w) ∧
      ∀ s ∈ quarterlySpans w, spanGranularity w 3 s) ∧
    (spansChronological w (yearlySpans w) ∧
      ∀ s ∈ yearlySpans w, spanGranularity w 12 s) := by
  clear _hw
  refine ⟨⟨?_, ?_⟩, ⟨?_, ?_⟩, ⟨?_, ?_⟩⟩
  · exact mkSpans_chronological w monthlyBounds (by decide) (by decide)
  · exact mkSpans_granularity w 1 monthlyBounds (by decide)
  · exact mkSpans_chronological w quarterlyBounds (by decide) (by decide)
  · exact mkSpans_granularity w 3 quarterlyBounds (by decide)
  · exact mkSpans_chronological w yearlyBounds (by decide) (by decide)
  · exact mkSpans_granularity w 12 yearlyBounds (by decide)

/-- Witness for C7 at the concrete warm-up of one day (1440 minutes). -/
theorem C7_span_tables_witness :
    (spansChronological 1440 (monthlySpans 1440) ∧
      ∀ s ∈ monthlySpans 1440, spanGranularity 1440 1 s) ∧
    (spansChronological 1440 (quarterlySpans 1440) ∧
      ∀ s ∈ quarterlySpans 1440, spanGranularity 1440 3 s) ∧
    (spansChronological 1440 (yearlySpans 1440) ∧
      ∀ s ∈ yearlySpans 1440, spanGranularity 1440 12 s) :=
  C7_span_tables 1440 (by norm_num)

theorem profit_map_elim (bs : List ResultReport) (ps : List ℚ)
    (h : bs.map (fun b => b.performanceReport.map PerfReport.profit)
       = ps.map (fun q => some (JNum.num q))) :
    bs.all (fun b => b.performanceReport.isSome) = true ∧
    bs.map (fun b => (perfGet b).profit) = ps.map JNum.num := by
  induction bs generalizing ps with
  | nil =>
    cases ps with
    | nil => simp
    | cons p ps => simp at h
  | cons b bs ih =>
    cases ps with
    | nil => simp at h
    | cons p ps =>
      simp only [List.map_cons, List.cons.injEq] at h
      obtain ⟨hb, hrest⟩ := h
      obtain ⟨pf, hpf, hprof⟩ := Option.map_eq_some'.mp hb
      obtain ⟨h1, h2⟩ := ih ps hrest
      constructor
      · simp [List.all_cons, hpf, h1]
      · rw [List.map_cons, List.map_cons]
        refine congrArg₂ List.cons ?_ h2
        show (perfGet b).profit = JNum.num p
        rw [perfGet, hpf, Option.getD_some, hprof]

theorem jge_num (q t : ℚ) : jge (JNum.num q) t = decide (t ≤ q) := rfl

theorem jlt_num (q t : ℚ) : jlt (JNum.num q) t = decide (q < t) := rfl

theorem filter_profit_count (t : ℚ) (bs : List ResultReport) (ps : List ℚ)
    (h : bs.map (fun b => (perfGet b).profit) = ps.map JNum.num) :
    ((bs.filter (fun b => jge (perfGet b).profit t)).length
      = (ps.filter (fun q => t ≤ q)).length) ∧
    ((bs.filter (fun b => jlt (perfGet b).profit t)).length
      = (ps.filter (fun q => q < t)).length) := by
  induction bs generalizing ps with
  | nil =>
    cases ps with
    | nil => simp
    | cons p ps => simp at h
  | cons b bs ih =>
    cases ps with
    | nil => simp at h
    | cons p ps =>
      simp only [List.map_cons, List.cons.injEq] at h
      obtain ⟨hb, hrest⟩ := h
      obtain ⟨h1, h2⟩ := ih ps hrest
      constructor
      · simp only [List.filter_cons, hb, jge_num]
        by_cases htp : t ≤ p <;> simp [htp, h1]
      · simp only [List.filter_cons, hb, jlt_num]
        by_cases htp : p < t <;> simp [htp, h2]

theorem foldl_jmin2_num (ps : List ℚ) :
    ∀ p : ℚ, (ps.map JNum.num).foldl jmin2 (JNum.num p) = .num (ps.foldl min p) := by
  induction ps with
  | nil => intro p; rfl
  | cons q ps ih =>
    intro p
    rw [List.map_cons, List.foldl_cons, List.foldl_cons]
    exact ih (min p q)

theorem foldl_jmax2_num (ps : List ℚ) :
    ∀ p : ℚ, (ps.map JNum.num).foldl jmax2 (JNum.num p) = .num (ps.foldl max p) := by
  induction ps with
  | nil => intro p; rfl
  | cons q ps ih =>
    intro p
    rw [List.map_cons, List.foldl_cons, List.foldl_cons]
    exact ih (max p q)

theorem jsMinList_num (p : ℚ) (ps : List ℚ) :
    jsMinList ((p :: ps).map JNum.num) = .num (ps.foldl min p) := by
  rw [List.map_cons, jsMinList]
  exact foldl_jmin2_num ps p

theorem jsMaxList_num (p : ℚ) (ps : List ℚ) :
    jsMaxList ((p :: ps).map JNum.num) = .num (ps.foldl max p) := by
  rw [List.map_cons, jsMaxList]
  exact foldl_jmax2_num ps p

theorem foldl_min_mem (p : ℚ) (ps : List ℚ) : ps.foldl min p ∈ p :: ps := by
  induction ps generalizing p with
  | nil => simp
  | cons q ps ih =>
    rw [List.foldl_cons]
    rcases List.mem_cons.mp (ih (min p q)) with h2 | h2
    · rw [h2]
      rcases min_choice p q with h | h <;> rw [h] <;> simp
    · exact List.mem_cons_of_mem _ (List.mem_cons_of_mem _ h2)

theorem foldl_max_mem (p : ℚ) (ps : List ℚ) : ps.foldl max p ∈ p :: ps := by
  induction ps generalizing p with
  | nil => simp
  | cons q ps ih =>
    rw [List.foldl_cons]
    rcases List.mem_cons.mp (ih (max p q)) with h2 | h2
    · rw [h2]
      rcases max_choice p q with h | h <;> rw [h] <;> simp
    · exact List.mem_cons_of_mem _ (List.mem_cons_of_mem _ h2)

theorem foldl_min_le (p : ℚ) (ps : List ℚ) : ∀ x ∈ p :: ps, ps.foldl min p ≤ x := by
  induction ps generalizing p with
  | nil =>
    intro x hx
    rw [List.mem_singleton] at hx
    subst hx
    simp
  | cons q ps ih =>
    intro x hx
    rw [List.foldl_cons]
    rcases List.mem_cons.mp hx with rfl | hx2
    · exact le_trans (ih (min x q) (min x q) (List.mem_cons_self _ _)) (min_le_left x q)
    · rcases List.mem_cons.mp hx2 with rfl | hx3
      · exact le_trans (ih (min p x) (min p x) (List.mem_cons_self _ _)) (min_le_right p x)
      · exact ih (min p q) x (List.mem_cons_of_mem _ hx3)

theorem foldl_max_ge (p : ℚ) (ps : List ℚ) : ∀ x ∈ p :: ps, x ≤ ps.foldl max p := by
  induction ps generalizing p with
  | nil =>
    intro x hx
    rw [List.mem_singleton] at hx
    subst hx
    simp
  | cons q ps ih =>
    intro x hx
    rw [List.foldl_cons]
    rcases List.mem_cons.mp hx with rfl | hx2
    · exact le_trans (le_max_left x q) (ih (max x q) (max x q) (List.mem_cons_self _ _))
    · rcases List.mem_cons.mp hx2 with rfl | hx3
      · exact le_trans (le_max_right p x) (ih (max p x) (max p x) (List.mem_cons_self _ _))
      · exact ih (max p q) x (List.mem_cons_of_mem _ hx3)

/-- Claim C1: on a non-empty list of result reports whose
`performanceReport.profit` values are the numbers `ps`, and any profit
threshold `t`, `getTotalPerformanceReport` returns a report whose
`periodsProfit` counts the profits that are at least `t`, whose
`periodsLoss` counts those strictly below `t`, whose `periodsTotal` is the
number of reports, and whose `minProfit`/`maxProfit` are the minimum and
maximum of the profits. -/
theorem C1_period_counters_and_extremes (backtests : List ResultReport)
    (ps : List ℚ) (t : ℚ) (hne : backtests ≠ [])
    (hps : backtests.map (fun b => b.performanceReport.map PerfReport.profit)
         = ps.map (fun q => some (JNum.num q))) :
    ∃ tpr, getTotalPerformanceReport backtests t = .ok (some tpr) ∧
      tpr.periodsProfit = (ps.filter (fun q => t ≤ q)).length ∧
      tpr.periodsLoss = (ps.filter (fun q => q < t)).length ∧
      tpr.periodsTotal = ps.length ∧
      (∃ m, tpr.minProfit = JNum.num m ∧ m ∈ ps ∧ ∀ x ∈ ps, m ≤ x) ∧
      (∃ M, tpr.maxProfit = JNum.num M ∧ M ∈ ps ∧ ∀ x ∈ ps, x ≤ M) := by
  obtain ⟨hall, hprof⟩ := profit_map_elim backtests ps hps
  cases backtests with
  | nil => exact absurd rfl hne
  | cons b0 rest =>
    cases ps with
    | nil => simp at hps
    | cons p ps =>
      obtain ⟨hcnt1, hcnt2⟩ := filter_profit_count t _ _ hprof
      simp only [getTotalPerformanceReport]
      rw [if_pos hall]
      refine ⟨_, rfl, ?_, ?_, ?_, ?_, ?_⟩
      · exact hcnt1
      · exact hcnt2
      · have := congrArg List.length hprof
        simpa using this
      · refine ⟨ps.foldl min p, ?_, foldl_min_mem p ps, foldl_min_le p ps⟩
        show jsMinList ((b0 :: rest).map (fun b => (perfGet b).profit)) = _
        rw [hprof, jsMinList_num]
      · refine ⟨ps.foldl max p, ?_, foldl_max_mem p ps, foldl_max_ge p ps⟩
        show jsMaxList ((b0 :: rest).map (fun b => (perfGet b).profit)) = _
        rw [hprof, jsMaxList_num]

/-- Reports with profits `[-5, 10, 0, 20]` and all other fields absent. -/
def demoReports : List ResultReport :=
  [ ⟨some { emptyPerf with profit := .num (-5) }, none⟩,
    ⟨some { emptyPerf with profit := .num 10 }, none⟩,
    ⟨some { emptyPerf with profit := .num 0 }, none⟩,
    ⟨some { emptyPerf with profit := .num 20 }, none⟩ ]

/-- Witness for C1, including the spec's concrete example: profits
`[-5, 10, 0, 20]` with threshold `0` give `periodsProfit = 3`,
`periodsLoss = 1`, `periodsTotal = 4`, `minProfit = -5`,
`maxProfit = 20`. -/
theorem C1_period_counters_and_extremes_witness :
    (∃ tpr, getTotalPerformanceReport demoReports 0 = .ok (some tpr) ∧
      tpr.periodsProfit = (([-5, 10, 0, 20] : List ℚ).filter (fun q => 0 ≤ q)).length ∧
      tpr.periodsLoss = (([-5, 10, 0, 20] : List ℚ).filter (fun q => q < 0)).length ∧
      tpr.periodsTotal = ([-5, 10, 0, 20] : List ℚ).length ∧
      (∃ m, tpr.minProfit = JNum.num m ∧ m ∈ ([-5, 10, 0, 20] : List ℚ) ∧
        ∀ x ∈ ([-5, 10, 0, 20] : List ℚ), m ≤ x) ∧
      (∃ M, tpr.maxProfit = JNum.num M ∧ M ∈ ([-5, 10, 0, 20] : List ℚ) ∧
        ∀ x ∈ ([-5, 10, 0, 20] : List ℚ), x ≤ M)) ∧
    (∃ tpr, getTotalPerformanceReport demoReports 0 = .ok (some tpr) ∧
      tpr.periodsProfit = 3 ∧ tpr.periodsLoss = 1 ∧ tpr.periodsTotal = 4 ∧
      tpr.minProfit = JNum.num (-5) ∧ tpr.maxProfit = JNum.num 20) :=
  ⟨C1_period_counters_and_extremes demoReports [-5, 10, 0, 20] 0 (by decide) (by decide),
   by exact ⟨_, rfl, by decide, by decide, by decide, by decide, by decide⟩⟩

/-- Claim C2: on an empty report list both aggregators return the absent
value (`undefined`), not a zero-valued structure and not an error, for
every profit threshold. -/
theorem C2_empty_input_undefined (t : ℚ) :
    getTotalPerformanceReport [] t = .ok none ∧
    getBatchBacktestReport [] = .ok none :=
  ⟨rfl, rfl⟩

/-- A report carrying a `performanceReport` whose five summed fields are all
plain numbers. -/
def summedFieldsNumeric (b : ResultReport) : Prop :=
  ∃ pf, b.performanceReport = some pf ∧
    (∃ a, pf.losses = JNum.num a) ∧ (∃ a, pf.profit = JNum.num a) ∧
    (∃ a, pf.relativeProfit = JNum.num a) ∧ (∃ a, pf.trades = JNum.num a) ∧
    (∃ a, pf.yearlyProfit = JNum.num a)

theorem sumStep_fields (b0 b : ResultReport)
    (h0 : summedFieldsNumeric b0) (hb : summedFieldsNumeric b) :
    summedFieldsNumeric (sumStep b0 b) ∧
    qval (perfGet (sumStep b0 b)).losses
      = qval (perfGet b0).losses + qval (perfGet b).losses ∧
    qval (perfGet (sumStep b0 b)).profit
      = qval (perfGet b0).profit + qval (perfGet b).profit ∧
    qval (perfGet (sumStep b0 b)).relativeProfit
      = qval (perfGet b0).relativeProfit + qval (perfGet b).relativeProfit ∧
    qval (perfGet (sumStep b0 b)).trades
      = qval (perfGet b0).trades + qval (perfGet b).trades ∧
    qval (perfGet (sumStep b0 b)).yearlyProfit
      = qval (perfGet b0).yearlyProfit + qval (perfGet b).yearlyProfit := by
  obtain ⟨pf0, hpf0, ⟨a1, e1⟩, ⟨a2, e2⟩, ⟨a3, e3⟩, ⟨a4, e4⟩, ⟨a5, e5⟩⟩ := h0
  obtain ⟨pfb, hpfb, ⟨c1, f1⟩, ⟨c2, f2⟩, ⟨c3, f3⟩, ⟨c4, f4⟩, ⟨c5, f5⟩⟩ := hb
  constructor
  · refine ⟨_, rfl, ?_, ?_, ?_, ?_, ?_⟩ <;>
      simp [perfGet, hpf0, hpfb, e1, e2, e3, e4, e5, f1, f2, f3, f4, f5, jadd]
  · refine ⟨?_, ?_, ?_, ?_, ?_⟩ <;>
      simp [sumStep, perfGet, hpf0, hpfb, e1, e2, e3, e4, e5, f1, f2, f3, f4, f5, jadd, qval]

theorem sumStep_foldl_sums :
    ∀ (rest : List ResultReport) (b0 : ResultReport),
      summedFieldsNumeric b0 → (∀ b ∈ rest, summedFieldsNumeric b) →
      ∃ pf, (rest.foldl sumStep b0).performanceReport = some pf ∧
        pf.losses = .num (((b0 :: rest).map (fun b => qval (perfGet b).losses)).sum) ∧
        pf.profit = .num (((b0 :: rest).map (fun b => qval (perfGet b).profit)).sum) ∧
        pf.relativeProfit
          = .num (((b0 :: rest).map (fun b => qval (perfGet b).relativeProfit)).sum) ∧
        pf.trades = .num (((b0 :: rest).map (fun b => qval (perfGet b).trades)).sum) ∧
        pf.yearlyProfit
          = .num (((b0 :: rest).map (fun b => qval (perfGet b).yearlyProfit)).sum)
  | [], b0, h0, _ => by
    obtain ⟨pf, hpf, ⟨a1, e1⟩, ⟨a2, e2⟩, ⟨a3, e3⟩, ⟨a4, e4⟩, ⟨a5, e5⟩⟩ := h0
    refine ⟨pf, hpf, ?_, ?_, ?_, ?_, ?_⟩ <;>
      simp [perfGet, hpf, e1, e2, e3, e4, e5, qval]
  | b :: rest, b0, h0, hr => by
    have hb := hr b (List.mem_cons_self b rest)
    obtain ⟨hwf, hl, hp, hrp, ht, hy⟩ := sumStep_fields b0 b h0 hb
    rw [List.foldl_cons]
    obtain ⟨pf, hpf, g1, g2, g3, g4, g5⟩ :=
      sumStep_foldl_sums rest (sumStep b0 b) hwf
        (fun x hx => hr x (List.mem_cons_of_mem b hx))
    refine ⟨pf, hpf, ?_, ?_, ?_, ?_, ?_⟩
    · rw [g1]; simp only [List.map_cons, List.sum_cons, hl]; ring_nf
    · rw [g2]; simp only [List.map_cons, List.sum_cons, hp]; ring_nf
    · rw [g3]; simp only [List.map_cons, List.sum_cons, hrp]; ring_nf
    · rw [g4]; simp only [List.map_cons, List.sum_cons, ht]; ring_nf
    · rw [g5]; simp only [List.map_cons, List.sum_cons, hy]; ring_nf

/-- Claim C3, corrected: on a non-empty list of reports each carrying a
`performanceReport` with all five summed fields numeric, the summed fields
of `getTotalPerformanceReport` equal the ordinary sums of those fields
across all reports.  (The original claim also let a report lack one of the
fields and demanded it contribute zero; the code instead propagates `NaN`,
see the counterexample.) -/
theorem C3_summed_fields (backtests : List ResultReport) (t : ℚ)
    (hne : backtests ≠ [])
    (h : ∀ b ∈ backtests, summedFieldsNumeric b) :
    ∃ tpr, getTotalPerformanceReport backtests t = .ok (some tpr) ∧
      tpr.losses = .num ((backtests.map (fun b => qval (perfGet b).losses)).sum) ∧
      tpr.profit = .num ((backtests.map (fun b => qval (perfGet b).profit)).sum) ∧
      tpr.relativeProfit
        = .num ((backtests.map (fun b => qval (perfGet b).relativeProfit)).sum) ∧
      tpr.trades = .num ((backtests.map (fun b => qval (perfGet b).trades)).sum) ∧
      tpr.yearlyProfit
        = .num ((backtests.map (fun b => qval (perfGet b).yearlyProfit)).sum) := by
  cases backtests with
  | nil => exact absurd rfl hne
  | cons b0 rest =>
    have hall : ((b0 :: rest).all (fun b => b.performanceReport.isSome)) = true := by
      rw [List.all_eq_true]
      intro b hbmem
      obtain ⟨pf, hpf, _⟩ := h b hbmem
      simp [hpf]
    obtain ⟨pf, hpf, g1, g2, g3, g4, g5⟩ :=
      sumStep_foldl_sums rest b0 (h b0 (List.mem_cons_self b0 rest))
        (fun x hx => h x (List.mem_cons_of_mem b0 hx))
    simp only [getTotalPerformanceReport]
    rw [if_pos hall]
    refine ⟨_, rfl, ?_, ?_, ?_, ?_, ?_⟩
    · show (perfGet (rest.foldl sumStep b0)).losses = _
      simp only [perfGet, hpf, Option.getD_some]
      exact g1
    · show (perfGet (rest.foldl sumStep b0)).profit = _
      simp only [perfGet, hpf, Option.getD_some]
      exact g2
    · show (perfGet (rest.foldl sumStep b0)).relativeProfit = _
      simp only [perfGet, hpf, Option.getD_some]
      exact g3
    · show (perfGet (rest.foldl sumStep b0)).trades = _
      simp only [perfGet, hpf, Option.getD_some]
      exact g4
    · show (perfGet (rest.foldl sumStep b0)).yearlyProfit = _
      simp only [perfGet, hpf, Option.getD_some]
      exact g5

/-- A report whose `performanceReport` is present but lacks the `losses`
field (reading it yields `undefined`). -/
def cexMissingLosses : ResultReport :=
  ⟨some { emptyPerf with profit := .num 1 }, none⟩

/-- A report whose `performanceReport` carries `losses = 5`. -/
def cexLossesFive : ResultReport :=
  ⟨some { emptyPerf with profit := .num 2, losses := .num 5 }, none⟩

/-- Counterexample to claim C3 as stated: with two reports whose
`performanceReport` structures are present but where the first lacks the
`losses` field, the aggregated `losses` is `NaN` (JavaScript
`undefined + 5`), not the `5` the claim's missing-treated-as-zero reading
demands — so a missing field does not contribute zero, and the sum can be
`NaN`. -/
theorem C3_missing_field_nan :
    ∃ tpr, getTotalPerformanceReport [cexMissingLosses, cexLossesFive] 0
        = .ok (some tpr) ∧
      tpr.losses = JNum.nan ∧ tpr.losses ≠ JNum.num 5 := by
  refine ⟨_, rfl, ?_, ?_⟩ <;> decide

/-- A report whose five summed fields all equal the number `a`. -/
def fullReport (a : ℚ) : ResultReport :=
  ⟨some ⟨.num a, .num a, .num a, .num a, .num a, .undef, .undef, .undef, .undef, .undef⟩,
   none⟩

theorem fullReport_wf (a : ℚ) : summedFieldsNumeric (fullReport a) :=
  ⟨_, rfl, ⟨a, rfl⟩, ⟨a, rfl⟩, ⟨a, rfl⟩, ⟨a, rfl⟩, ⟨a, rfl⟩⟩

/-- Witness for the corrected C3 at two fully numeric reports. -/
theorem C3_summed_fields_witness :
    ∃ tpr, getTotalPerformanceReport [fullReport 1, fullReport 2] 0 = .ok (some tpr) ∧
      tpr.losses
        = .num ((([fullReport 1, fullReport 2]).map (fun b => qval (perfGet b).losses)).sum) ∧
      tpr.profit
        = .num ((([fullReport 1, fullReport 2]).map (fun b => qval (perfGet b).profit)).sum) ∧
      tpr.relativeProfit
        = .num ((([fullReport 1, fullReport 2]).map
            (fun b => qval (perfGet b).relativeProfit)).sum) ∧
      tpr.trades
        = .num ((([fullReport 1, fullReport 2]).map (fun b => qval (perfGet b).trades)).sum) ∧
      tpr.yearlyProfit
        = .num ((([fullReport 1, fullReport 2]).map
            (fun b => qval (perfGet b).yearlyProfit)).sum) :=
  C3_summed_fields [fullReport 1, fullReport 2] 0 (by decide)
    (by
      intro b hb
      rcases List.mem_cons.mp hb with rfl | hb2
      · exact fullReport_wf 1
      · rcases List.mem_singleton.mp hb2 with rfl
        exact fullReport_wf 2)

/-- Claim C4: on a non-empty list in which some report lacks the
`performanceReport` structure entirely, `getTotalPerformanceReport` throws
(the property accesses building the `Object.assign` argument dereference
`undefined`), so the call fails explicitly instead of returning a
well-formed or NaN-valued report. -/
theorem C4_missing_structure_throws (backtests : List ResultReport) (t : ℚ)
    (hne : backtests ≠ [])
    (hmiss : ∃ b ∈ backtests, b.performanceReport = none) :
    getTotalPerformanceReport backtests t = .error () := by
  cases backtests with
  | nil => exact absurd rfl hne
  | cons b0 rest =>
    have hnall : ¬ ((b0 :: rest).all (fun b => b.performanceReport.isSome) = true) := by
      rw [List.all_eq_true]
      push_neg
      obtain ⟨b, hb, hbn⟩ := hmiss
      exact ⟨b, hb, by simp [hbn]⟩
    simp only [getTotalPerformanceReport]
    rw [if_neg hnall]

/-- Witness for C4 at a one-element list whose report has no
`performanceReport`. -/
theorem C4_missing_structure_throws_witness :
    getTotalPerformanceReport [ResultReport.mk none none] 0 = .error () :=
  C4_missing_structure_throws [ResultReport.mk none none] 0 (by decide)
    ⟨ResultReport.mk none none, List.mem_singleton_self _, rfl⟩

/-- Claim C10: on every non-empty report list (with the `performanceReport`
structures present, otherwise both functions throw) and every threshold,
`getBatchBacktestReport` returns exactly the `minProfit`/`maxProfit` fields
of `getTotalPerformanceReport`, both being the extremes of the per-report
`performanceReport.profit` values. -/
theorem C10_batch_report_projection (backtests : List ResultReport) (t : ℚ)
    (hne : backtests ≠ [])
    (hall : backtests.all (fun b => b.performanceReport.isSome) = true) :
    ∃ tpr br, getTotalPerformanceReport backtests t = .ok (some tpr) ∧
      getBatchBacktestReport backtests = .ok (some br) ∧
      br.minProfit = tpr.minProfit ∧ br.maxProfit = tpr.maxProfit ∧
      tpr.minProfit = jsMinList (backtests.map (fun b => (perfGet b).profit)) ∧
      tpr.maxProfit = jsMaxList (backtests.map (fun b => (perfGet b).profit)) := by
  cases backtests with
  | nil => exact absurd rfl hne
  | cons b0 rest =>
    simp only [getTotalPerformanceReport, getBatchBacktestReport]
    rw [if_pos hall, if_pos hall, if_pos (by simp : (b0 :: rest).length > 0)]
    exact ⟨_, _, rfl, rfl, rfl, rfl, rfl, rfl⟩

/-- Witness for C10 at two concrete reports. -/
theorem C10_batch_report_projection_witness :
    ∃ tpr br, getTotalPerformanceReport [fullReport 1, fullReport 2] 0 = .ok (some tpr) ∧
      getBatchBacktestReport [fullReport 1, fullReport 2] = .ok (some br) ∧
      br.minProfit = tpr.minProfit ∧ br.maxProfit = tpr.maxProfit ∧
      tpr.minProfit
        = jsMinList ([fullReport 1, fullReport 2].map (fun b => (perfGet b).profit)) ∧
      tpr.maxProfit
        = jsMaxList ([fullReport 1, fullReport 2].map (fun b => (perfGet b).profit)) :=
  C10_batch_report_projection [fullReport 1, fullReport 2] 0 (by decide) (by decide)

theorem setSpan_setSpan (c : Config) (s1 s2 : DateSpan) :
    setSpan (setSpan c s1) s2 = setSpan c s2 := rfl

theorem seqLoop_pure {ε : Type} (f : Config → ResultReport) :
    ∀ (spans : List DateSpan) (config : Config),
      seqLoop (fun c => (Except.ok (f c) : Except ε ResultReport)) config spans
        = .ok (spans.map (fun s => f (setSpan config s)))
  | [], _ => rfl
  | s :: rest, config => by
    simp only [seqLoop, List.map_cons]
    rw [seqLoop_pure f rest (setSpan config s)]
    rfl

theorem concAll_pure {ε : Type} (f : Config → ResultReport) :
    ∀ (spans : List DateSpan) (config : Config),
      concAll (fun c => (Except.ok (f c) : Except ε ResultReport)) config spans
        = .ok (spans.map (fun s => f (setSpan config s)))
  | [], _ => rfl
  | s :: rest, config => by
    simp only [concAll, List.map_cons]
    rw [concAll_pure f rest config]
    rfl

/-- Claim C5: with a deterministic, pure compute engine (a function from
configuration to result report that always succeeds), the sequential branch
and the concurrent branch of the route produce identical outputs — the same
ordered backtest list and hence identical aggregate performance, batch and
fake (summary) reports. -/
theorem C5_mode_transparency {ε : Type} (f : Config → ResultReport)
    (config : Config) (spans : List DateSpan) (t : ℚ) :
    runBatch (fun c => (Except.ok (f c) : Except ε ResultReport)) true config spans t
      = runBatch (fun c => (Except.ok (f c) : Except ε ResultReport)) false config spans t := by
  simp only [runBatch, if_true, if_false]
  rw [seqLoop_pure f spans config, concAll_pure f spans config,
    if_neg Bool.false_ne_true]

theorem seqLoop_fails {ε : Type} (engine : Config → Except ε ResultReport) (e : ε) :
    ∀ (spans : List DateSpan) (config : Config) (i : ℕ) (hi : i < spans.length),
      engine (setSpan config (spans.get ⟨i, hi⟩)) = .error e →
      (∀ j (hj : j < spans.length), j < i →
        ∃ r, engine (setSpan config (spans.get ⟨j, hj⟩)) = .ok r) →
      seqLoop engine config spans = .error e
  | [], _, i, hi, _, _ => absurd hi (by simp)
  | s :: rest, config, 0, hi, hfail, _ => by
    have hfail2 : engine (setSpan config s) = .error e := hfail
    simp only [seqLoop]
    rw [hfail2]
    rfl
  | s :: rest, config, i + 1, hi, hfail, hok => by
    obtain ⟨r0, h0⟩ := hok 0 (Nat.succ_pos rest.length) (Nat.succ_pos i)
    have h02 : engine (setSpan config s) = .ok r0 := h0
    have hrec := seqLoop_fails engine e rest (setSpan config s) i
      (Nat.lt_of_succ_lt_succ hi) hfail
      (fun j hj hji => hok (j + 1) (Nat.succ_lt_succ hj) (Nat.succ_lt_succ hji))
    simp only [seqLoop]
    rw [h02, hrec]
    rfl

theorem concAll_fails {ε : Type} (engine : Config → Except ε ResultReport) (e : ε) :
    ∀ (spans : List DateSpan) (config : Config) (i : ℕ) (hi : i < spans.length),
      engine (setSpan config (spans.get ⟨i, hi⟩)) = .error e →
      (∀ j (hj : j < spans.length), j ≠ i →
        ∃ r, engine (setSpan config (spans.get ⟨j, hj⟩)) = .ok r) →
      concAll engine config spans = .error e
  | [], _, i, hi, _, _ => absurd hi (by simp)
  | s :: rest, config, 0, hi, hfail, _ => by
    have hfail2 : engine (setSpan (deepClone config) s) = .error e := hfail
    simp only [concAll]
    rw [hfail2]
    rfl
  | s :: rest, config, i + 1, hi, hfail, hok => by
    obtain ⟨r0, h0⟩ := hok 0 (Nat.succ_pos rest.length)
      (fun heq => Nat.succ_ne_zero i heq.symm)
    have h02 : engine (setSpan (deepClone config) s) = .ok r0 := h0
    have hrec := concAll_fails engine e rest config i
      (Nat.lt_of_succ_lt_succ hi) hfail
      (fun j hj hji =>
        hok (j + 1) (Nat.succ_lt_succ hj) (fun heq => hji (Nat.succ_injective heq)))
    simp only [concAll]
    rw [h02, hrec]
    rfl

/-- Claim C6: if the compute engine rejects exactly the partition at index
`i` (and succeeds on every other partition), the whole batch fails in both
execution modes with that partition's error (so the propagated error is the
one raised at partition `i`), and no aggregate report is produced — the
route returns an error, not a `BatchOutput`. -/
theorem C6_failfast_both_modes {ε : Type} (engine : Config → Except ε ResultReport)
    (config : Config) (spans : List DateSpan) (t : ℚ) (i : ℕ) (e : ε)
    (hi : i < spans.length)
    (hfail : engine (setSpan config (spans.get ⟨i, hi⟩)) = .error e)
    (hok : ∀ j (hj : j < spans.length), j ≠ i →
      ∃ r, engine (setSpan config (spans.get ⟨j, hj⟩)) = .ok r) :
    runBatch engine true config spans t = .error (.engine e) ∧
    runBatch engine false config spans t = .error (.engine e) := by
  constructor
  · have hs := seqLoop_fails engine e spans config i hi hfail
      (fun j hj hji => hok j hj (Nat.ne_of_lt hji))
    simp only [runBatch, if_true, if_false]
    rw [hs]
  · have hc := concAll_fails engine e spans config i hi hfail hok
    simp only [runBatch, if_true, if_false]
    rw [hc, if_neg Bool.false_ne_true]

/-- A stub compute engine that rejects exactly the partition whose date
range is `[20, 30)`. -/
def failEngine : Config → Except String ResultReport :=
  fun c =>
    if c.backtest.daterange = some { fromTs := 20, toTs := 30 } then
      .error "partition 1 failed"
    else
      .ok (ResultReport.mk none none)

/-- A minimal base configuration for the execution witnesses. -/
def cfgBase : Config := ⟨⟨none⟩, ⟨10, 5⟩, none⟩

/-- Three concrete spans for the execution witnesses. -/
def demoSpans : List DateSpan := [⟨0, 10⟩, ⟨20, 30⟩, ⟨40, 50⟩]

/-- Witness for C6: the stub failing on partition index 1 of 3 aborts both
modes with that partition's error. -/
theorem C6_failfast_both_modes_witness :
    runBatch failEngine true cfgBase demoSpans 0 = .error (.engine "partition 1 failed") ∧
    runBatch failEngine false cfgBase demoSpans 0 = .error (.engine "partition 1 failed") :=
  C6_failfast_both_modes failEngine cfgBase demoSpans 0 1 "partition 1 failed"
    (by simp [demoSpans])
    (by rfl)
    (by
      intro j hj hne
      have hj3 : j < 3 := by simpa [demoSpans] using hj
      interval_cases j
      · exact ⟨ResultReport.mk none none, rfl⟩
      · exact absurd rfl hne
      · exact ⟨ResultReport.mk none none, rfl⟩)

/-- Configuration whose `batchSize` is the unrecognized value `"1 week"`. -/
def cfgWeek : Config := ⟨⟨none⟩, ⟨10, 5⟩, some ⟨some "1 week"⟩⟩

/-- Counterexample to claim C8 as stated: for the unrecognized batch size
`"1 week"` (warm-up 10 × 5 = 50 minutes), `getDateMonthSpansForYear`
returns `undefined` (`none`), not the monthly spans. -/
theorem C8_unrecognized_returns_undefined :
    getDateMonthSpansForYear cfgWeek = none ∧
    getDateMonthSpansForYear cfgWeek ≠ some (monthlySpans 50) := by
  constructor <;> decide

/-- Claim C8, corrected: an absent `batchSize` (or empty string, both falsy)
selects the monthly scheme, but an unrecognized non-empty value matches no
branch and the function returns `undefined` (`none`) rather than defaulting
to the monthly spans. -/
theorem C8_default_and_unrecognized (config : Config) :
    (config.batchBacktest.bind (fun s => s.batchSize) = none →
      getDateMonthSpansForYear config = some (monthlySpans
        (config.tradingAdvisor.historySize * config.tradingAdvisor.candleSize))) ∧
    (∀ v, config.batchBacktest.bind (fun s => s.batchSize) = some v →
      v ≠ "" → v ≠ "1 month" → v ≠ "1 quarter" → v ≠ "1 year" →
      getDateMonthSpansForYear config = none) := by
  constructor
  · intro h
    simp [getDateMonthSpansForYear, h]
  · intro v hv h1 h2 h3 h4
    simp [getDateMonthSpansForYear, hv, h1, h2, h3, h4]

/-- Witness for the corrected C8: absent `batchSize` yields the monthly
spans; `"1 week"` yields `undefined`. -/
theorem C8_default_and_unrecognized_witness :
    getDateMonthSpansForYear ⟨⟨none⟩, ⟨10, 5⟩, none⟩ = some (monthlySpans (10 * 5)) ∧
    getDateMonthSpansForYear cfgWeek = none :=
  ⟨(C8_default_and_unrecognized ⟨⟨none⟩, ⟨10, 5⟩, none⟩).1 rfl,
   (C8_default_and_unrecognized cfgWeek).2 "1 week" rfl
     (by decide) (by decide) (by decide) (by decide)⟩

/-- A compute engine that mutates its input configuration (sets
`tradingAdvisor.historySize` to 999) before returning. -/
def mutEngine : Config → ResultReport × Config :=
  fun c => (ResultReport.mk none none,
    { c with tradingAdvisor := { c.tradingAdvisor with historySize := 999 } })

/-- Counterexample to claim C9 as stated: the claim asserts that in both
execution modes every compute-engine invocation receives a fully
independent deep-cloned configuration.  In sequential mode the same
configuration object is reused across invocations (only `daterange` is
overwritten), so with a mutating engine the second invocation observes the
first invocation's mutation and the sequential input trace differs from the
independent-clone trace. -/
theorem C9_sequential_shares_config :
    seqInputsMut mutEngine cfgBase demoSpans ≠ concInputs cfgBase demoSpans := by
  decide

/-- Claim C9, corrected: in concurrent mode every invocation receives an
independent deep clone of the original configuration scoped to its own
span; in sequential mode the shared configuration is threaded through the
engine, so the invocations receive exactly those independent-clone inputs
only when the compute engine does not mutate its input configuration. -/
theorem C9_clone_independence (engine : Config → ResultReport × Config)
    (config : Config) (spans : List DateSpan)
    (hnomut : ∀ c, (engine c).2 = c) :
    seqInputsMut engine config spans = concInputs config spans ∧
    concInputs config spans = spans.map (fun s => setSpan (deepClone config) s) := by
  refine ⟨?_, rfl⟩
  induction spans generalizing config with
  | nil => rfl
  | cons s rest ih =>
    show setSpan config s :: seqInputsMut engine (engine (setSpan config s)).2 rest
        = concInputs config (s :: rest)
    rw [hnomut]
    show _ = setSpan (deepClone config) s :: rest.map (fun s2 => setSpan (deepClone config) s2)
    refine congrArg₂ List.cons rfl ?_
    rw [ih (setSpan config s)]
    rfl

/-- The identity (non-mutating) engine. -/
def idEngine : Config → ResultReport × Config :=
  fun c => (ResultReport.mk none none, c)

/-- Witness for the corrected C9 with a non-mutating engine on the concrete
spans. -/
theorem C9_clone_independence_witness :
    seqInputsMut idEngine cfgBase demoSpans = concInputs cfgBase demoSpans ∧
    concInputs cfgBase demoSpans = demoSpans.map (fun s => setSpan (deepClone cfgBase) s) :=
  C9_clone_independence idEngine cfgBase demoSpans (fun _ => rfl)

end Gekko
